import Mathlib

/-
Verification of the investment-dashboard data-normalization and
upsert-persistence pipeline.

The development shallowly embeds the Python sources:
  app/client/fred_macro_data_client.py   (series fetchers, spread alignment)
  src/client/fred_macro_data_client.py   (latest-value fetchers)
  src/client/trading_economics_client.py (latest-value fetcher)
  app/repository/macro_indicator_repo.py (create / find_by_type_and_date / delete)
  app/service/macro_data_service.py      (save routines, read accessors)

Python datetimes are modelled as a calendar-day index plus a
microsecond-of-day; Python floats that may be NaN are modelled as
Option Rat with none standing for NaN/null; pandas Series are modelled
as date-indexed association lists.
-/

/-- A timestamp: calendar day index plus microseconds within the day.
Comparison of Python datetimes is lexicographic on (day, time-of-day). -/
structure DT where
  day : Nat
  usec : Nat
deriving DecidableEq

/-- Microseconds in a day; datetime.max.time() is 23:59:59.999999,
i.e. uSecPerDay - 1 microseconds after midnight. -/
def uSecPerDay : Nat := 86400000000

/-- The order of Python datetimes (lexicographic on day then time). -/
def dtLeP (a b : DT) : Prop :=
  a.day < b.day ∨ (a.day = b.day ∧ a.usec ≤ b.usec)

instance (a b : DT) : Decidable (dtLeP a b) := by
  unfold dtLeP; infer_instance

/-- Boolean form of the datetime order, used by the query filters. -/
def dtLe (a b : DT) : Bool := decide (dtLeP a b)

/-- datetime.combine(date, datetime.min.time()). -/
def startOfDay (d : Nat) : DT := ⟨d, 0⟩

/-- datetime.combine(date, datetime.max.time()). -/
def endOfDay (d : Nat) : DT := ⟨d, uSecPerDay - 1⟩

/-- One row of the macro_indicator table (repository/model).  The value
column is a Python float, modelled as Option Rat so that a NaN reaching
storage is representable as none. -/
structure MacroIndicator where
  id : Nat
  type : String
  name : String
  value : Option ℚ
  date_time : DT
  is_leading_indicator : Bool
  region : String
  creation_data_time : DT
deriving DecidableEq

/-- The stored table plus the surrogate-key counter. -/
structure DB where
  rows : List MacroIndicator
  nextId : Nat
deriving DecidableEq

def emptyDB : DB := ⟨[], 0⟩

/-- MacroIndicatorRepository.create: inserts a new row with a fresh id and
creation_data_time set to the current instant; never deduplicates. -/
def createRow (db : DB) (type name : String) (value : Option ℚ) (date_time : DT)
    (is_leading : Bool) (region : String) (cnow : DT) : DB :=
  { rows := db.rows ++ [⟨db.nextId, type, name, value, date_time, is_leading, region, cnow⟩],
    nextId := db.nextId + 1 }

/-- The row filter used by find_by_type_and_date: exact type match and
date_time within [start_of_day, end_of_day] of the requested date. -/
def matchesTypeDay (type : String) (d : Nat) (r : MacroIndicator) : Bool :=
  r.type == type && dtLe (startOfDay d) r.date_time && dtLe r.date_time (endOfDay d)

/-- MacroIndicatorRepository.find_by_type_and_date: first stored row whose
type matches and whose date_time falls on the calendar day of the argument
(datetime.combine uses only the date part of the argument). -/
def find_by_type_and_date (db : DB) (type : String) (d : DT) : Option MacroIndicator :=
  db.rows.find? (matchesTypeDay type d.day)

/-- MacroIndicatorRepository.delete: session.delete removes the row with
the given primary key. -/
def deleteRow (db : DB) (r : MacroIndicator) : DB :=
  { rows := db.rows.filter (fun x => !(x.id == r.id)), nextId := db.nextId }

/-- Comparison of rows by observation timestamp (ORDER BY date_time ASC). -/
def rowDtLe (a b : MacroIndicator) : Bool := dtLe a.date_time b.date_time

/-- Modelled from the spec: find_by_region_date_range is invoked by
MacroDataService.get_all_us_indicators / get_all_china_indicators but its
definition is not among the sources; per the spec it returns the rows with
start <= date_time <= end (inclusive on both bounds) and an exact region
match, ordered by date_time ascending. -/
def find_by_region_date_range (db : DB) (start_date end_date : DT) (region : String) :
    List MacroIndicator :=
  (db.rows.filter (fun r =>
    dtLe start_date r.date_time && dtLe r.date_time end_date && r.region == region)).mergeSort
    rowDtLe

/-- The upsert protocol body shared by every save routine: look up any
existing row for (type, calendar day of date_time), delete it if found,
then insert the new row. -/
def upsertStep (db : DB) (type name : String) (value : Option ℚ) (date_time : DT)
    (is_leading : Bool) (region : String) (cnow : DT) : DB :=
  let db1 :=
    match find_by_type_and_date db type date_time with
    | some r => deleteRow db r
    | none => db
  createRow db1 type name value date_time is_leading region cnow

/-- Number of stored rows for a (type, calendar day) pair. -/
def countTypeDay (db : DB) (type : String) (d : Nat) : Nat :=
  (db.rows.filter (fun r => r.type == type && r.date_time.day == d)).length

/-- Well-formedness of the store: every surrogate id is below the counter,
ids are distinct, and every timestamp has a valid time-of-day. -/
def goodDB (db : DB) : Prop :=
  (∀ r ∈ db.rows, r.id < db.nextId ∧ r.date_time.usec < uSecPerDay) ∧
  (db.rows.map (fun r => r.id)).Nodup

/-- A pandas Series indexed by date: entries are (date, float), where a
none value stands for NaN. -/
abbrev PSeries := List (Nat × Option ℚ)

/-- Series.dropna: keep only the non-NaN observations. -/
def dropna (s : PSeries) : PSeries := s.filter (fun p => p.2.isSome)

/-- The date index of a series. -/
def seriesKeys (s : PSeries) : List Nat := s.map Prod.fst

/-- Value of a series at a date: NaN both when the date is absent from the
index and when the stored value is NaN (pandas lookup-with-reindex). -/
def lookupDate (s : PSeries) (d : Nat) : Option ℚ :=
  match s.find? (fun p => p.1 == d) with
  | some p => p.2
  | none => none

/-- Ascending insertion into a date index. -/
def insertAsc (x : Nat) : List Nat → List Nat
  | [] => [x]
  | y :: t => if x ≤ y then x :: y :: t else y :: insertAsc x t

/-- Ascending sort of a date index. -/
def sortAsc : List Nat → List Nat
  | [] => []
  | x :: t => insertAsc x (sortAsc t)

/-- Sorted union of two date indices, as pandas outer alignment builds it. -/
def unionKeys (a b : List Nat) : List Nat :=
  (sortAsc (a ++ b)).dedup

/-- Reindex a series on a new date index, filling NaN at absent dates. -/
def reindex (s : PSeries) (keys : List Nat) : PSeries :=
  keys.map (fun d => (d, lookupDate s d))

/-- Series.align with the default outer join: both series reindexed on the
sorted union of their indices. -/
def alignSeries (a b : PSeries) : PSeries × PSeries :=
  let keys := unionKeys (seriesKeys a) (seriesKeys b)
  (reindex a keys, reindex b keys)

/-- Elementwise subtraction of two identically indexed series; NaN in
either operand propagates to the result. -/
def seriesSub (a b : PSeries) : PSeries :=
  List.zipWith
    (fun p q =>
      (p.1,
        match p.2, q.2 with
        | some x, some y => some (x - y)
        | _, _ => none))
    a b

/-- The spread computation of get_treasury_yields_and_spreads:
aligned_a, aligned_b = a.align(b); spread = aligned_a - aligned_b. -/
def computeSpread (a b : PSeries) : PSeries :=
  let ab := alignSeries a b
  seriesSub ab.1 ab.2

/-- Outcome of one remote FRED request: an exception, or a raw series
(already restricted server-side to the requested window). -/
inductive FetchOutcome where
  | fail : FetchOutcome
  | ok : PSeries → FetchOutcome
deriving DecidableEq

/-- The remote FRED service, as a map from series id to outcome. -/
abbrev FetchEnv := String → FetchOutcome

/-- _get_fred_series_value (app client): fetch, drop NaNs, return None on
error or when nothing remains. -/
def getFredSeriesValue (env : FetchEnv) (sid : String) : Option PSeries :=
  match env sid with
  | .fail => none
  | .ok data =>
    let result := dropna data
    if result.isEmpty then none else some result

/-- _get_latest_fred_series_value (src client): fetch, then the last
non-NaN observation, None on error or when none remains. -/
def getLatestFredSeriesValue (env : FetchEnv) (sid : String) : Option ℚ :=
  match env sid with
  | .fail => none
  | .ok data => ((dropna data).getLast?).bind Prod.snd

/-- Outcome of one Trading Economics request: an exception, or a data
frame given as (whether a Value column is present, the dated Value
column). -/
inductive TEOutcome where
  | fail : TEOutcome
  | ok : Bool → PSeries → TEOutcome
deriving DecidableEq

/-- The remote Trading Economics service, keyed by (country, indicator). -/
abbrev TEEnv := String → String → TEOutcome

/-- _get_latest_indicator_value (trading economics client): None on error,
empty frame or missing Value column; otherwise the last non-NaN value. -/
def getLatestIndicatorValue (tenv : TEEnv) (country indicator : String) : Option ℚ :=
  match tenv country indicator with
  | .fail => none
  | .ok hasValueCol col =>
    if col.isEmpty then none
    else if hasValueCol then ((dropna col).getLast?).bind Prod.snd
    else none

/-- The requested sub-indicators of the leading-indicator group. -/
def leadingSeriesMap : List (String × String) :=
  [("leading_index_us", "USALOLITOAASTSAM"), ("leading_index_de", "BBKMLEIX")]

/-- get_leading_indicators (app client): builds the result dict in a loop;
a key is assigned only when its fetch succeeded (the value.empty branch is
unreachable because the helper never returns an empty series). -/
def get_leading_indicators_app (env : FetchEnv) : List (String × Option PSeries) :=
  leadingSeriesMap.foldl
    (fun values kv =>
      match getFredSeriesValue env kv.2 with
      | some v => values ++ [(kv.1, if v.isEmpty then none else some v)]
      | none => values)
    []

/-- get_leading_indicators (src client): every requested key is assigned,
with None recording a failed or empty fetch. -/
def get_leading_indicators_src (env : FetchEnv) : List (String × Option ℚ) :=
  leadingSeriesMap.map (fun kv => (kv.1, getLatestFredSeriesValue env kv.2))

/-- dict.get on a dict whose stored values are themselves optional: None
when the key is absent or when the stored value is None. -/
def dictGet {α : Type} (data : List (String × Option α)) (k : String) : Option α :=
  match data.find? (fun p => p.1 == k) with
  | some p => p.2
  | none => none

/-- get_treasury_yields_and_spreads (app client): fetch the three yield
series, then align-and-subtract for each spread whose operands are both
present. -/
def get_treasury_yields_and_spreads_app (env : FetchEnv) : List (String × Option PSeries) :=
  let dgs3mo := getFredSeriesValue env "DGS3MO"
  let dgs2 := getFredSeriesValue env "DGS2"
  let dgs10 := getFredSeriesValue env "DGS10"
  let spread_10y_2y :=
    match dgs10, dgs2 with
    | some s10, some s2 => some (computeSpread s10 s2)
    | _, _ => none
  let spread_10y_3m :=
    match dgs10, dgs3mo with
    | some s10, some s3 => some (computeSpread s10 s3)
    | _, _ => none
  [("dgs3mo", dgs3mo), ("dgs2", dgs2), ("dgs10", dgs10),
   ("spread_10y_2y", spread_10y_2y), ("spread_10y_3m", spread_10y_3m)]

/-- The inner loop of _save_leading_indicators_to_db: for every non-NaN
observation of one series, upsert a row with the observation date as
date_time, is_leading_indicator=True and region="US". -/
def saveSeriesRows (t nm : String) (db : DB) (s : PSeries) (cnow : DT) : DB :=
  s.foldl
    (fun db p =>
      match p.2 with
      | some v => upsertStep db t nm (some v) ⟨p.1, 0⟩ true "US" cnow
      | none => db)
    db

/-- _save_leading_indicators_to_db (app service): for each of the two
families present and non-None in the dict, upsert every non-NaN
observation of the series. -/
def saveLeadingIndicators (db : DB) (data : List (String × Option PSeries)) (cnow : DT) : DB :=
  let db1 :=
    match dictGet data "leading_index_us" with
    | some us_data => saveSeriesRows "USALOLITOAASTSAM" "US_LEADING_INDEX" db us_data cnow
    | none => db
  match dictGet data "leading_index_de" with
  | some de_data => saveSeriesRows "BBKMLEIX" "BBK_LEADING_INDEX" db1 de_data cnow
  | none => db1

/-- The scalar save-routine body shared verbatim by the treasury, consumer,
financial-conditions, PMI and commodity families: for each sub-indicator of
the family whose fetched value is not None, upsert one row dated with the
invocation time, is_leading_indicator=False and region="US". -/
def saveScalarGroup (indicators : List (String × String × String))
    (db : DB) (data : List (String × Option ℚ)) (now cnow : DT) : DB :=
  indicators.foldl
    (fun db kv =>
      match dictGet data kv.1 with
      | some v => upsertStep db kv.2.1 kv.2.2 (some v) now false "US" cnow
      | none => db)
    db

/-- The treasury family table of _save_treasury_data_to_db. -/
def treasuryIndicators : List (String × String × String) :=
  [("dgs3mo", "DGS3MO", "TREASURY_3M_YIELD"),
   ("dgs2", "DGS2", "TREASURY_2Y_YIELD"),
   ("dgs10", "DGS10", "TREASURY_10Y_YIELD"),
   ("spread_10y_2y", "SPREAD_10Y_2Y", "TREASURY_SPREAD_10Y_2Y"),
   ("spread_10y_3m", "SPREAD_10Y_3M", "TREASURY_SPREAD_10Y_3M")]

/-- The consumer family table of _save_consumer_indices_to_db. -/
def consumerIndicators : List (String × String × String) :=
  [("consumer_credit", "TOTALSL", "CONSUMER_CREDIT"),
   ("consumer_sentiment", "UMCSENT", "CONSUMER_SENTIMENT"),
   ("disposable_income", "DSPIC96", "DISPOSABLE_INCOME")]

/-- The financial-conditions family table. -/
def financialIndicators : List (String × String × String) :=
  [("national_financial_conditions", "NFCI", "NATIONAL_FINANCIAL_CONDITIONS"),
   ("adjusted_financial_conditions", "ANFCI", "ADJUSTED_FINANCIAL_CONDITIONS")]

/-- The PMI family table. -/
def pmiIndicators : List (String × String × String) :=
  [("manufacturing_pmi", "ISM_MAN_PMI", "MANUFACTURING_PMI"),
   ("services_pmi", "ISM_SERV_PMI", "SERVICES_PMI"),
   ("composite_pmi", "COMP_PMI", "COMPOSITE_PMI")]

/-- The commodity family table. -/
def commodityIndicators : List (String × String × String) :=
  [("crude_oil", "CRUDE_OIL_FUT", "CRUDE_OIL_FUTURES"),
   ("gold", "GOLD_FUT", "GOLD_FUTURES")]

def saveTreasuryData (db : DB) (data : List (String × Option ℚ)) (now cnow : DT) : DB :=
  saveScalarGroup treasuryIndicators db data now cnow

def saveConsumerIndices (db : DB) (data : List (String × Option ℚ)) (now cnow : DT) : DB :=
  saveScalarGroup consumerIndicators db data now cnow

def saveFinancialConditionIndices (db : DB) (data : List (String × Option ℚ)) (now cnow : DT) :
    DB :=
  saveScalarGroup financialIndicators db data now cnow

def savePmiIndicators (db : DB) (data : List (String × Option ℚ)) (now cnow : DT) : DB :=
  saveScalarGroup pmiIndicators db data now cnow

def saveCommodityPrices (db : DB) (data : List (String × Option ℚ)) (now cnow : DT) : DB :=
  saveScalarGroup commodityIndicators db data now cnow

/-- fetch_and_store_consumer_indices_by_date_range: run the provider fetch
(abstracted here as the grouped result it produced), save, and report
success; only a persistence exception would escape, and the save routine
itself raises on no input shape. -/
def fetch_and_store_consumer_indices (db : DB) (data : List (String × Option ℚ))
    (now cnow : DT) : Bool × DB :=
  (true, saveConsumerIndices db data now cnow)

/-- The per-row detail mapping built by the read accessors. -/
structure IndicatorDetail where
  type : String
  name : String
  value : Option ℚ
  date_time : DT
  is_leading_indicator : Bool
  region : String
deriving DecidableEq

/-- Assignment into a Python dict keyed by indicator type (last wins). -/
def dictInsert (m : List (String × IndicatorDetail)) (k : String) (v : IndicatorDetail) :
    List (String × IndicatorDetail) :=
  if m.any (fun p => p.1 == k) then m.map (fun p => if p.1 == k then (k, v) else p)
  else m ++ [(k, v)]

/-- The dict comprehension of the read accessors. -/
def indicatorsDict (rows : List MacroIndicator) : List (String × IndicatorDetail) :=
  rows.foldl
    (fun m r =>
      dictInsert m r.type ⟨r.type, r.name, r.value, r.date_time, r.is_leading_indicator, r.region⟩)
    []

/-- get_all_china_indicators: rows in range with region CHINA, shaped into
a mapping keyed by type. -/
def get_all_china_indicators (db : DB) (start_date end_date : DT) :
    List (String × IndicatorDetail) :=
  indicatorsDict (find_by_region_date_range db start_date end_date "CHINA")

/-- The save operations MacroDataService can run, each with the grouped
provider result it received and the invocation/creation instants. -/
inductive SaveOp where
  | leading (data : List (String × Option PSeries)) (cnow : DT)
  | treasury (data : List (String × Option ℚ)) (now cnow : DT)
  | consumer (data : List (String × Option ℚ)) (now cnow : DT)
  | financial (data : List (String × Option ℚ)) (now cnow : DT)
  | pmi (data : List (String × Option ℚ)) (now cnow : DT)
  | commodity (data : List (String × Option ℚ)) (now cnow : DT)

/-- Dispatch one orchestration save call. -/
def applySaveOp (db : DB) (op : SaveOp) : DB :=
  match op with
  | .leading data cnow => saveLeadingIndicators db data cnow
  | .treasury data now cnow => saveTreasuryData db data now cnow
  | .consumer data now cnow => saveConsumerIndices db data now cnow
  | .financial data now cnow => saveFinancialConditionIndices db data now cnow
  | .pmi data now cnow => savePmiIndicators db data now cnow
  | .commodity data now cnow => saveCommodityPrices db data now cnow

/-- A 10-year yield series with observations on days 1, 2 and 3. -/
def exS10 : PSeries := [(1, some 45), (2, some 46), (3, some 47)]

/-- A 2-year yield series sharing days 1 and 2 only. -/
def exS2 : PSeries := [(1, some 41), (2, some 42)]

/-- A remote state for the treasury fetch: DGS10 has three observations,
DGS2 shares two of their dates, DGS3MO errors out. -/
def envSpread : FetchEnv := fun sid =>
  if sid == "DGS10" then .ok exS10
  else if sid == "DGS2" then .ok exS2
  else .fail

/-- A remote state where the US leading-index fetch fails and the German
one succeeds. -/
def envLeadFail : FetchEnv := fun sid =>
  if sid == "BBKMLEIX" then .ok [(0, some 1)]
  else .fail

/-- A remote state where both leading-index fetches succeed. -/
def envLeadOk : FetchEnv := fun sid =>
  if sid == "USALOLITOAASTSAM" then .ok [(0, some 3), (1, none)]
  else if sid == "BBKMLEIX" then .ok [(0, some 1)]
  else .fail

/-- Two rows with the same type on the same calendar day (types are only
procedurally deduplicated, so such a state is representable). -/
def rowDup1 : MacroIndicator :=
  ⟨0, "DGS10", "TREASURY_10Y_YIELD", some 45, ⟨5, 0⟩, false, "US", ⟨5, 0⟩⟩

def rowDup2 : MacroIndicator :=
  ⟨1, "DGS10", "TREASURY_10Y_YIELD", some 46, ⟨5, 3600000000⟩, false, "US", ⟨5, 0⟩⟩

def dbDup : DB := ⟨[rowDup1, rowDup2], 2⟩

/-- The scenario row stored at 09:00:00 on day 100. -/
def rowNine : MacroIndicator :=
  ⟨0, "DGS10", "TREASURY_10Y_YIELD", some 45, ⟨100, 32400000000⟩, false, "US", ⟨100, 0⟩⟩

def dbNine : DB := ⟨[rowNine], 1⟩

/-- A series containing a NaN observation. -/
def exNaNSeries : PSeries := [(1, some 2), (2, none), (3, some 4)]

/-- A leading-indicator dict whose US series contains a NaN. -/
def exLeadData : List (String × Option PSeries) :=
  [("leading_index_us", some exNaNSeries), ("leading_index_de", none)]

/-- A consumer grouped result with one failed sub-indicator. -/
def exConsumerData : List (String × Option ℚ) :=
  [("consumer_credit", some 5), ("consumer_sentiment", none), ("disposable_income", some 7)]

/-- A treasury grouped result with one failed sub-indicator. -/
def exTreasuryData : List (String × Option ℚ) :=
  [("dgs3mo", some 50), ("dgs2", some 41), ("dgs10", some 45),
   ("spread_10y_2y", some 4), ("spread_10y_3m", none)]

/-- A series holds a (numeric, non-NaN) value at a date. -/
def hasValueAt (s : PSeries) (d : Nat) : Prop := ∃ q : ℚ, (d, some q) ∈ s

/-- A fetch that the clients surface as None: the remote call raised, or
the response had no non-NaN observation in the window. -/
def fetchFailedOrEmpty (env : FetchEnv) (sid : String) : Prop :=
  env sid = FetchOutcome.fail ∨ ∃ raw, env sid = FetchOutcome.ok raw ∧ dropna raw = []

/-- The raw series behind envLeadOk for the US leading index. -/
def rawLeadOk : PSeries := [(0, some 3), (1, none)]

/-- A Trading Economics remote state answering every request with a
two-observation Value column. -/
def envTE : TEEnv := fun _ _ => .ok true [(0, some 50), (2, some 51)]

lemma dtLe_trans (a b c : DT) (hab : dtLe a b = true) (hbc : dtLe b c = true) :
    dtLe a c = true := by
  simp only [dtLe, decide_eq_true_eq, dtLeP] at hab hbc ⊢
  omega

lemma dtLe_total (a b : DT) : (dtLe a b || dtLe b a) = true := by
  simp only [dtLe, Bool.or_eq_true, decide_eq_true_eq, dtLeP]
  omega

lemma rowDtLe_trans (a b c : MacroIndicator) (hab : rowDtLe a b = true)
    (hbc : rowDtLe b c = true) : rowDtLe a c = true :=
  dtLe_trans _ _ _ hab hbc

lemma rowDtLe_total (a b : MacroIndicator) : (rowDtLe a b || rowDtLe b a) = true :=
  dtLe_total _ _

lemma matchesTypeDay_eq (t : String) (d : Nat) (r : MacroIndicator)
    (hr : r.date_time.usec < uSecPerDay) :
    matchesTypeDay t d r = (r.type == t && r.date_time.day == d) := by
  rw [Bool.eq_iff_iff]
  simp only [matchesTypeDay, dtLe, startOfDay, endOfDay, Bool.and_eq_true,
    decide_eq_true_eq, dtLeP, beq_iff_eq, uSecPerDay] at hr ⊢
  constructor
  · rintro ⟨⟨hty, h1⟩, h2⟩
    exact ⟨hty, by omega⟩
  · rintro ⟨hty, hday⟩
    refine ⟨⟨hty, ?_⟩, ?_⟩ <;> omega

lemma find_none_iff (db : DB) (t : String) (d : DT)
    (hvalid : ∀ r ∈ db.rows, r.date_time.usec < uSecPerDay) :
    find_by_type_and_date db t d = none ↔ countTypeDay db t d.day = 0 := by
  unfold find_by_type_and_date countTypeDay
  rw [List.find?_eq_none, List.length_eq_zero, List.filter_eq_nil_iff]
  constructor
  · intro h r hr
    rw [← matchesTypeDay_eq t d.day r (hvalid r hr)]
    exact h r hr
  · intro h r hr
    rw [matchesTypeDay_eq t d.day r (hvalid r hr)]
    exact h r hr

lemma mem_of_length_le_one {α : Type} {l : List α} {a b : α} (h : l.length ≤ 1)
    (ha : a ∈ l) (hb : b ∈ l) : a = b := by
  match l with
  | [] => simp at ha
  | [x] =>
    simp only [List.mem_singleton] at ha hb
    rw [ha, hb]
  | x :: y :: t => simp at h

lemma filter_out_id_count (p : MacroIndicator → Bool) (rows : List MacroIndicator) :
    ∀ r ∈ rows, p r = true →
      (rows.map (fun x => x.id)).Nodup →
      ((rows.filter (fun x => !(x.id == r.id))).filter p).length + 1 =
        (rows.filter p).length := by
  induction rows with
  | nil => intro r hmem; simp at hmem
  | cons a l ih =>
    intro r hmem hpr hnd
    simp only [List.map_cons, List.nodup_cons, List.mem_map, not_exists, not_and] at hnd
    rcases List.mem_cons.mp hmem with heq | hmem'
    · subst heq
      have hfl : l.filter (fun x => !(x.id == r.id)) = l := by
        apply List.filter_eq_self.mpr
        intro x hx
        simp only [Bool.not_eq_true', beq_eq_false_iff_ne, ne_eq]
        exact hnd.1 x hx
      simp [List.filter_cons, hpr, hfl]
    · have hne : (a.id == r.id) = false := by
        simp only [beq_eq_false_iff_ne, ne_eq]
        intro h
        exact hnd.1 r hmem' h.symm
      have hrec := ih r hmem' hpr hnd.2
      by_cases hpa : p a = true
      · simp only [List.filter_cons, hne, Bool.not_false, if_true, hpa, List.length_cons]
        omega
      · simp only [Bool.not_eq_true] at hpa
        simp only [List.filter_cons, hne, Bool.not_false, if_true, hpa, Bool.false_eq_true,
          if_false]
        omega

lemma createRow_count (db : DB) (t nm : String) (v : Option ℚ) (dtm : DT) (lead : Bool)
    (reg : String) (cnow : DT) :
    countTypeDay (createRow db t nm v dtm lead reg cnow) t dtm.day =
      countTypeDay db t dtm.day + 1 := by
  unfold countTypeDay createRow
  simp [List.filter_append, List.filter_cons]

lemma upsert_count (db : DB) (t nm : String) (v : Option ℚ) (dtm : DT) (lead : Bool)
    (reg : String) (cnow : DT)
    (hvalid : ∀ r ∈ db.rows, r.date_time.usec < uSecPerDay)
    (hnd : (db.rows.map (fun x => x.id)).Nodup) :
    countTypeDay (upsertStep db t nm v dtm lead reg cnow) t dtm.day =
      max (countTypeDay db t dtm.day) 1 := by
  unfold upsertStep
  cases hfind : find_by_type_and_date db t dtm with
  | none =>
    have h0 : countTypeDay db t dtm.day = 0 := (find_none_iff db t dtm hvalid).mp hfind
    simp only [hfind]
    rw [createRow_count, h0]
    decide
  | some r =>
    have hmem : r ∈ db.rows := List.mem_of_find?_eq_some hfind
    have hpr : (fun x => x.type == t && x.date_time.day == dtm.day) r = true := by
      have hm := List.find?_some hfind
      rwa [matchesTypeDay_eq t dtm.day r (hvalid r hmem)] at hm
    have hdel := filter_out_id_count (fun x => x.type == t && x.date_time.day == dtm.day)
      db.rows r hmem hpr hnd
    have hge : 0 < (db.rows.filter (fun x => x.type == t && x.date_time.day == dtm.day)).length :=
      List.length_pos.mpr (List.ne_nil_of_mem (List.mem_filter.mpr ⟨hmem, hpr⟩))
    simp only [hfind]
    rw [createRow_count]
    unfold countTypeDay at hge ⊢
    rw [Nat.max_eq_left hge]
    unfold deleteRow
    dsimp only
    omega

lemma deleteRow_good (db : DB) (r : MacroIndicator) (hgood : goodDB db) :
    goodDB (deleteRow db r) := by
  obtain ⟨hb, hnd⟩ := hgood
  constructor
  · intro x hx
    exact hb x (List.mem_of_mem_filter hx)
  · exact ((List.filter_sublist db.rows).map (fun x => x.id)).nodup hnd

lemma createRow_good (db : DB) (t nm : String) (v : Option ℚ) (dtm : DT) (lead : Bool)
    (reg : String) (cnow : DT) (hdtm : dtm.usec < uSecPerDay) (hgood : goodDB db) :
    goodDB (createRow db t nm v dtm lead reg cnow) := by
  obtain ⟨hb, hnd⟩ := hgood
  unfold createRow
  constructor
  · intro x hx
    rcases List.mem_append.mp hx with hx | hx
    · exact ⟨Nat.lt_succ_of_lt (hb x hx).1, (hb x hx).2⟩
    · simp only [List.mem_singleton] at hx
      subst hx
      exact ⟨Nat.lt_succ_self _, hdtm⟩
  · rw [List.map_append]
    refine List.Nodup.append hnd (by simp) ?_
    intro a ha hb'
    simp only [List.map_cons, List.map_nil, List.mem_singleton] at hb'
    subst hb'
    obtain ⟨x, hx, hxe⟩ := List.mem_map.mp ha
    exact absurd ((hb x hx).1) (by rw [hxe]; omega)

lemma upsert_good (db : DB) (t nm : String) (v : Option ℚ) (dtm : DT) (lead : Bool)
    (reg : String) (cnow : DT) (hdtm : dtm.usec < uSecPerDay) (hgood : goodDB db) :
    goodDB (upsertStep db t nm v dtm lead reg cnow) := by
  unfold upsertStep
  cases hfind : find_by_type_and_date db t dtm with
  | none =>
    simp only [hfind]
    exact createRow_good db t nm v dtm lead reg cnow hdtm hgood
  | some r =>
    simp only [hfind]
    exact createRow_good _ t nm v dtm lead reg cnow hdtm (deleteRow_good db r hgood)

/-- C2: the upsert protocol (find_by_type_and_date, delete if found, create)
is idempotent: if at most one row was stored for a (type, calendar-day)
pair, then after running the protocol twice with the same input exactly one
row is stored for that pair. -/
theorem upsert_protocol_idempotent (db : DB) (t nm : String) (v : Option ℚ) (dtm : DT)
    (lead : Bool) (reg : String) (cnow1 cnow2 : DT)
    (hgood : goodDB db) (hdtm : dtm.usec < uSecPerDay)
    (hone : countTypeDay db t dtm.day ≤ 1) :
    countTypeDay
      (upsertStep (upsertStep db t nm v dtm lead reg cnow1) t nm v dtm lead reg cnow2)
      t dtm.day = 1 := by
  have hg1 := upsert_good db t nm v dtm lead reg cnow1 hdtm hgood
  have h1 := upsert_count db t nm v dtm lead reg cnow1 (fun r hr => (hgood.1 r hr).2) hgood.2
  have h2 := upsert_count (upsertStep db t nm v dtm lead reg cnow1) t nm v dtm lead reg cnow2
    (fun r hr => (hg1.1 r hr).2) hg1.2
  rw [h2, h1]
  omega

/-- C2 witness: running the protocol twice from the empty store leaves
exactly one row for the pair. -/
theorem upsert_protocol_idempotent_witness :
    countTypeDay
      (upsertStep (upsertStep emptyDB "DGS10" "TREASURY_10Y_YIELD" (some 45) ⟨7, 5⟩ false "US"
        ⟨7, 6⟩) "DGS10" "TREASURY_10Y_YIELD" (some 45) ⟨7, 5⟩ false "US" ⟨7, 8⟩)
      "DGS10" 7 = 1 :=
  upsert_protocol_idempotent emptyDB "DGS10" "TREASURY_10Y_YIELD" (some 45) ⟨7, 5⟩ false "US"
    ⟨7, 6⟩ ⟨7, 8⟩ (by constructor <;> simp [emptyDB]) (by simp [uSecPerDay]) (by decide)

/-- C3: find_by_region_date_range returns exactly the stored rows with
start <= date_time <= end (inclusive bounds) and an exact region match,
ordered non-decreasing by date_time.  (The operation itself is modelled
from the spec; see its definition.) -/
theorem find_by_region_date_range_spec (db : DB) (s e : DT) (reg : String) :
    (find_by_region_date_range db s e reg).Perm
      (db.rows.filter (fun r => dtLe s r.date_time && dtLe r.date_time e && r.region == reg)) ∧
    (∀ r, r ∈ find_by_region_date_range db s e reg ↔
      (r ∈ db.rows ∧ dtLeP s r.date_time ∧ dtLeP r.date_time e ∧ r.region = reg)) ∧
    List.Pairwise (fun a b => dtLeP a.date_time b.date_time)
      (find_by_region_date_range db s e reg) := by
  refine ⟨List.mergeSort_perm _ _, ?_, ?_⟩
  · intro r
    unfold find_by_region_date_range
    rw [(List.mergeSort_perm _ _).mem_iff, List.mem_filter]
    simp [dtLe, and_assoc]
  · have hs := List.sorted_mergeSort rowDtLe_trans rowDtLe_total
      (db.rows.filter (fun r => dtLe s r.date_time && dtLe r.date_time e && r.region == reg))
    refine List.Pairwise.imp ?_ hs
    intro a b hab
    simpa [rowDtLe, dtLe] using hab

/-- C3 witness: the stored scenario row is returned for a window that
contains its timestamp. -/
theorem find_by_region_date_range_spec_witness :
    rowNine ∈ find_by_region_date_range dbNine ⟨100, 0⟩ ⟨101, 0⟩ "US" :=
  ((find_by_region_date_range_spec dbNine ⟨100, 0⟩ ⟨101, 0⟩ "US").2.1 rowNine).mpr
    (by refine ⟨by decide, by decide, by decide, rfl⟩)

/-- C5 counterexample: find_by_type_and_date returns a single record, so
when two stored rows share a type and calendar day the second matching row
is not returned, refuting "for every stored row, it is returned exactly
when it matches". -/
theorem find_first_duplicate_counterexample :
    rowDup2 ∈ dbDup.rows ∧ rowDup2.type = "DGS10" ∧ rowDup2.date_time.day = 5 ∧
    rowDup2.date_time.usec < uSecPerDay ∧
    find_by_type_and_date dbDup "DGS10" ⟨5, 0⟩ ≠ some rowDup2 := by
  refine ⟨by decide, by decide, by decide, by decide, by decide⟩

/-- C5 (amended): find_by_type_and_date matches by calendar day, not
exact timestamp: any returned row has the requested type and calendar
day; no row is returned exactly when no stored row matches; and whenever
at most one stored row matches (the procedural invariant), a stored row
is returned exactly when its type equals the argument and its date_time
falls within the calendar day of the given date. -/
theorem find_by_type_and_date_day_matching (db : DB) (t : String) (d : DT)
    (hvalid : ∀ r ∈ db.rows, r.date_time.usec < uSecPerDay) :
    (∀ r, find_by_type_and_date db t d = some r →
      r ∈ db.rows ∧ r.type = t ∧ r.date_time.day = d.day) ∧
    (find_by_type_and_date db t d = none ↔
      ∀ r ∈ db.rows, ¬(r.type = t ∧ r.date_time.day = d.day)) ∧
    (countTypeDay db t d.day ≤ 1 →
      ∀ r ∈ db.rows, (find_by_type_and_date db t d = some r ↔
        (r.type = t ∧ r.date_time.day = d.day))) := by
  have hsome : ∀ r, find_by_type_and_date db t d = some r →
      r ∈ db.rows ∧ r.type = t ∧ r.date_time.day = d.day := by
    intro r h
    have hmem : r ∈ db.rows := List.mem_of_find?_eq_some h
    have hm := List.find?_some h
    rw [matchesTypeDay_eq t d.day r (hvalid r hmem)] at hm
    simp only [Bool.and_eq_true, beq_iff_eq] at hm
    exact ⟨hmem, hm.1, hm.2⟩
  have hnone : find_by_type_and_date db t d = none ↔
      ∀ r ∈ db.rows, ¬(r.type = t ∧ r.date_time.day = d.day) := by
    unfold find_by_type_and_date
    rw [List.find?_eq_none]
    constructor
    · intro h r hr
      have := h r hr
      rw [matchesTypeDay_eq t d.day r (hvalid r hr)] at this
      simpa [Bool.and_eq_true, beq_iff_eq] using this
    · intro h r hr
      rw [matchesTypeDay_eq t d.day r (hvalid r hr)]
      simpa [Bool.and_eq_true, beq_iff_eq] using h r hr
  refine ⟨hsome, hnone, ?_⟩
  intro hone r hr
  constructor
  · intro h
    exact ((hsome r h).2)
  · rintro ⟨ht, hd⟩
    cases hf : find_by_type_and_date db t d with
    | none => exact absurd ⟨ht, hd⟩ (hnone.mp hf r hr)
    | some r0 =>
      obtain ⟨hmem0, ht0, hd0⟩ := hsome r0 hf
      have he : r0 = r := by
        refine mem_of_length_le_one hone ?_ ?_
        · exact List.mem_filter.mpr ⟨hmem0, by simp [ht0, hd0]⟩
        · exact List.mem_filter.mpr ⟨hr, by simp [ht, hd]⟩
      rw [he]

/-- C5 witness: the row stored at 09:00:00 of day 100 is found for day
100 and not found for day 101. -/
theorem find_by_type_and_date_day_matching_witness :
    find_by_type_and_date dbNine "DGS10" ⟨100, 0⟩ = some rowNine ∧
    find_by_type_and_date dbNine "DGS10" ⟨101, 0⟩ = none :=
  ⟨((find_by_type_and_date_day_matching dbNine "DGS10" ⟨100, 0⟩ (by decide)).2.2 (by decide)
      rowNine (by decide)).mpr (by decide),
   (find_by_type_and_date_day_matching dbNine "DGS10" ⟨101, 0⟩ (by decide)).2.1.mpr (by decide)⟩

lemma mem_insertAsc (x d : Nat) (l : List Nat) : d ∈ insertAsc x l ↔ (d = x ∨ d ∈ l) := by
  induction l with
  | nil => simp [insertAsc]
  | cons y t ih =>
    unfold insertAsc
    by_cases h : x ≤ y
    · simp [h]
    · simp only [h, if_false, List.mem_cons, ih]
      tauto

lemma mem_sortAsc (d : Nat) (l : List Nat) : d ∈ sortAsc l ↔ d ∈ l := by
  induction l with
  | nil => simp [sortAsc]
  | cons x t ih => simp [sortAsc, mem_insertAsc, ih]

lemma mem_unionKeys (a b : List Nat) (d : Nat) : d ∈ unionKeys a b ↔ (d ∈ a ∨ d ∈ b) := by
  unfold unionKeys
  rw [List.mem_dedup, mem_sortAsc, List.mem_append]

lemma computeSpread_eq_map (a b : PSeries) :
    computeSpread a b = (unionKeys (seriesKeys a) (seriesKeys b)).map
      (fun d =>
        (d,
          match lookupDate a d, lookupDate b d with
          | some x, some y => some (x - y)
          | _, _ => none)) := by
  simp only [computeSpread, alignSeries, seriesSub, reindex]
  rw [List.zipWith_map, List.zipWith_same]

lemma seriesKeys_map_pair (K : List Nat) (f : Nat → Option ℚ) :
    seriesKeys (K.map (fun d => (d, f d))) = K := by
  induction K with
  | nil => rfl
  | cons x t ih => simp only [List.map_cons, seriesKeys] at ih ⊢; rw [ih]

lemma lookupDate_isSome_iff (s : PSeries) (hs : ∀ p ∈ s, (Prod.snd p).isSome = true)
    (d : Nat) : (lookupDate s d).isSome = true ↔ d ∈ seriesKeys s := by
  unfold lookupDate seriesKeys
  cases hf : s.find? (fun p => p.1 == d) with
  | none =>
    simp only [Option.isSome_none, Bool.false_eq_true, false_iff]
    intro hd
    obtain ⟨p, hp, hpd⟩ := List.mem_map.mp hd
    rw [List.find?_eq_none] at hf
    exact absurd (by simpa using hpd) (by simpa using hf p hp)
  | some p =>
    have hmem := List.mem_of_find?_eq_some hf
    have hps := List.find?_some hf
    simp only [hs p hmem, true_iff]
    exact List.mem_map.mpr ⟨p, hmem, by simpa using hps⟩

/-- C1 counterexample: with DGS10 observed on days 1, 2, 3 and DGS2 on
days 1, 2 only, the computed spread series still carries day 3 in its
index (pandas align is an outer join), holding a NaN there — day 3 is not
excluded from the result. -/
theorem spread_outer_align_counterexample :
    seriesKeys exS10 = [1, 2, 3] ∧ seriesKeys exS2 = [1, 2] ∧
    (3, (none : Option ℚ)) ∈
      (dictGet (get_treasury_yields_and_spreads_app envSpread) "spread_10y_2y").getD [] := by
  refine ⟨by decide, by decide, by decide⟩

/-- C1 (amended): the spread series computed by align-then-subtract is
indexed by the union of the two date indices; it holds a numeric value at
a date exactly when both input series have a value there, and a NaN
placeholder at dates present in only one input, so its non-null support
is exactly the shared dates. -/
theorem spread_nonnull_support (a b : PSeries)
    (ha : ∀ p ∈ a, (Prod.snd p).isSome = true) (hb : ∀ p ∈ b, (Prod.snd p).isSome = true) :
    (∀ d, hasValueAt (computeSpread a b) d ↔ (d ∈ seriesKeys a ∧ d ∈ seriesKeys b)) ∧
    (∀ d, d ∈ seriesKeys (computeSpread a b) ↔ (d ∈ seriesKeys a ∨ d ∈ seriesKeys b)) := by
  constructor
  · intro d
    rw [computeSpread_eq_map]
    unfold hasValueAt
    constructor
    · rintro ⟨q, hq⟩
      obtain ⟨d0, hd0, heq⟩ := List.mem_map.mp hq
      have hd : d0 = d := congrArg Prod.fst heq
      subst hd
      have hv :
          (match lookupDate a d0, lookupDate b d0 with
            | some x, some y => some (x - y)
            | _, _ => none) = some q := congrArg Prod.snd heq
      cases hla : lookupDate a d0 with
      | none =>
        rw [hla] at hv
        cases hlb : lookupDate b d0 <;> rw [hlb] at hv <;> simp at hv
      | some x =>
        cases hlb : lookupDate b d0 with
        | none => rw [hla, hlb] at hv; simp at hv
        | some y =>
          refine ⟨?_, ?_⟩
          · exact (lookupDate_isSome_iff a ha d0).mp (by rw [hla]; rfl)
          · exact (lookupDate_isSome_iff b hb d0).mp (by rw [hlb]; rfl)
    · rintro ⟨hda, hdb⟩
      have hsa := (lookupDate_isSome_iff a ha d).mpr hda
      have hsb := (lookupDate_isSome_iff b hb d).mpr hdb
      obtain ⟨x, hx⟩ := Option.isSome_iff_exists.mp hsa
      obtain ⟨y, hy⟩ := Option.isSome_iff_exists.mp hsb
      refine ⟨x - y, List.mem_map.mpr ⟨d, (mem_unionKeys _ _ d).mpr (Or.inl hda), ?_⟩⟩
      rw [hx, hy]
  · intro d
    rw [computeSpread_eq_map, seriesKeys_map_pair]
    exact mem_unionKeys _ _ d

/-- C1 witness: the support characterization at the concrete pair of
input series. -/
theorem spread_nonnull_support_witness :
    (∀ d, hasValueAt (computeSpread exS10 exS2) d ↔
      (d ∈ seriesKeys exS10 ∧ d ∈ seriesKeys exS2)) ∧
    (∀ d, d ∈ seriesKeys (computeSpread exS10 exS2) ↔
      (d ∈ seriesKeys exS10 ∨ d ∈ seriesKeys exS2)) :=
  spread_nonnull_support exS10 exS2 (by decide) (by decide)

lemma mem_of_getLast?_eq_some {α : Type} {l : List α} {a : α} (h : l.getLast? = some a) :
    a ∈ l := by
  obtain ⟨hne, heq⟩ := List.mem_getLast?_eq_getLast (Option.mem_def.mpr h)
  rw [heq]
  exact List.getLast_mem hne

lemma bind_getLast_eq_none (s : PSeries) (hs : ∀ p ∈ s, (Prod.snd p).isSome = true) :
    ((s.getLast?).bind Prod.snd = none) ↔ s = [] := by
  cases hd : s.getLast? with
  | none =>
    simp only [Option.none_bind]
    simp [List.getLast?_eq_none_iff.mp hd]
  | some y =>
    have hmem := mem_of_getLast?_eq_some hd
    obtain ⟨q, hq⟩ := Option.isSome_iff_exists.mp (hs y hmem)
    rw [Option.some_bind, hq]
    exact iff_of_false (by simp) (List.ne_nil_of_mem hmem)

lemma getLatestFredSeriesValue_eq_none_iff (env : FetchEnv) (sid : String) :
    getLatestFredSeriesValue env sid = none ↔ fetchFailedOrEmpty env sid := by
  unfold getLatestFredSeriesValue fetchFailedOrEmpty
  cases henv : env sid with
  | fail => simp
  | ok data =>
    have hall : ∀ p ∈ dropna data, (Prod.snd p).isSome = true := fun p hp =>
      (List.mem_filter.mp hp).2
    rw [bind_getLast_eq_none (dropna data) hall]
    simp

lemma getFredSeriesValue_eq_none_iff (env : FetchEnv) (sid : String) :
    getFredSeriesValue env sid = none ↔ fetchFailedOrEmpty env sid := by
  unfold getFredSeriesValue fetchFailedOrEmpty
  cases henv : env sid with
  | fail => simp
  | ok data =>
    by_cases h : (dropna data).isEmpty = true
    · simp only [h, if_true]
      simp [List.isEmpty_iff.mp h]
    · simp only [h, Bool.false_eq_true, if_false]
      rw [List.isEmpty_iff] at h
      simp [h]

/-- C4 counterexample: in the app client, a failed sub-indicator fetch
leaves its key out of the returned mapping entirely instead of mapping it
to None. -/
theorem leading_group_missing_key_counterexample :
    envLeadFail "USALOLITOAASTSAM" = FetchOutcome.fail ∧
    (get_leading_indicators_app envLeadFail).map Prod.fst = ["leading_index_de"] ∧
    "leading_index_us" ∉ (get_leading_indicators_app envLeadFail).map Prod.fst := by
  refine ⟨by decide, by decide, by decide⟩

/-- C4 (amended): the group methods never raise; the src client returns
every requested key, with None exactly for keys whose fetch failed or
came back empty; the app client instead returns exactly the successful
keys, omitting failed ones from the mapping. -/
theorem leading_group_keys_spec (env : FetchEnv) :
    ((get_leading_indicators_src env).map Prod.fst =
      ["leading_index_us", "leading_index_de"]) ∧
    (∀ k sid, (k, sid) ∈ leadingSeriesMap →
      (dictGet (get_leading_indicators_src env) k = none ↔ fetchFailedOrEmpty env sid)) ∧
    ((get_leading_indicators_app env).map Prod.fst =
      (leadingSeriesMap.filter (fun kv => (getFredSeriesValue env kv.2).isSome)).map
        Prod.fst) ∧
    (∀ k sid, (k, sid) ∈ leadingSeriesMap →
      (k ∈ (get_leading_indicators_app env).map Prod.fst ↔
        ¬ fetchFailedOrEmpty env sid)) := by
  have hneq : ("leading_index_us" : String) ≠ "leading_index_de" := by decide
  have hneq' : ("leading_index_de" : String) ≠ "leading_index_us" := by decide
  have happ : (get_leading_indicators_app env).map Prod.fst =
      (leadingSeriesMap.filter (fun kv => (getFredSeriesValue env kv.2).isSome)).map
        Prod.fst := by
    unfold get_leading_indicators_app leadingSeriesMap
    simp only [List.foldl_cons, List.foldl_nil]
    cases h1 : getFredSeriesValue env "USALOLITOAASTSAM" <;>
      cases h2 : getFredSeriesValue env "BBKMLEIX" <;>
        simp [List.filter_cons, h1, h2]
  have hiff : ∀ sid, ((getFredSeriesValue env sid).isSome = true) ↔
      ¬ fetchFailedOrEmpty env sid := by
    intro sid
    rw [← getFredSeriesValue_eq_none_iff env sid]
    exact Option.ne_none_iff_isSome.symm
  refine ⟨rfl, ?_, happ, ?_⟩
  · intro k sid hmem
    simp only [leadingSeriesMap, List.mem_cons, Prod.mk.injEq, List.not_mem_nil,
      or_false] at hmem
    rcases hmem with ⟨rfl, rfl⟩ | ⟨rfl, rfl⟩
    · exact getLatestFredSeriesValue_eq_none_iff env "USALOLITOAASTSAM"
    · exact getLatestFredSeriesValue_eq_none_iff env "BBKMLEIX"
  · intro k sid hmem
    rw [happ]
    simp only [leadingSeriesMap, List.mem_cons, Prod.mk.injEq, List.not_mem_nil,
      or_false] at hmem
    rcases hmem with ⟨rfl, rfl⟩ | ⟨rfl, rfl⟩
    · rw [← hiff "USALOLITOAASTSAM"]
      cases h1 : getFredSeriesValue env "USALOLITOAASTSAM" <;>
        cases h2 : getFredSeriesValue env "BBKMLEIX" <;>
          simp [List.filter_cons, leadingSeriesMap, h1, h2, hneq, hneq']
    · rw [← hiff "BBKMLEIX"]
      cases h1 : getFredSeriesValue env "USALOLITOAASTSAM" <;>
        cases h2 : getFredSeriesValue env "BBKMLEIX" <;>
          simp [List.filter_cons, leadingSeriesMap, h1, h2, hneq, hneq']

/-- C4 witness: with both fetches succeeding, the src mapping lists both
keys and the app mapping contains the US key. -/
theorem leading_group_keys_spec_witness :
    (get_leading_indicators_src envLeadOk).map Prod.fst =
      ["leading_index_us", "leading_index_de"] ∧
    "leading_index_us" ∈ (get_leading_indicators_app envLeadOk).map Prod.fst :=
  ⟨(leading_group_keys_spec envLeadOk).1,
   ((leading_group_keys_spec envLeadOk).2.2.2 "leading_index_us" "USALOLITOAASTSAM"
      (by decide)).mpr
     (by
       rintro (h | ⟨raw, hraw, hempty⟩)
       · exact absurd h (by decide)
       · have hr : raw = rawLeadOk := by
           have hok : envLeadOk "USALOLITOAASTSAM" = FetchOutcome.ok rawLeadOk := by decide
           rw [hok] at hraw
           cases hraw
           rfl
         rw [hr] at hempty
         exact absurd hempty (by decide))⟩

lemma upsertStep_rows (db : DB) (t nm : String) (v : Option ℚ) (dtm : DT) (lead : Bool)
    (reg : String) (cnow : DT) :
    ∀ r ∈ (upsertStep db t nm v dtm lead reg cnow).rows,
      r ∈ db.rows ∨ (r.type = t ∧ r.value = v ∧ r.date_time = dtm ∧ r.region = reg) := by
  intro r hr
  unfold upsertStep at hr
  cases hfind : find_by_type_and_date db t dtm with
  | none =>
    rw [hfind] at hr
    unfold createRow at hr
    rcases List.mem_append.mp hr with h | h
    · exact Or.inl h
    · simp only [List.mem_singleton] at h
      subst h
      exact Or.inr ⟨rfl, rfl, rfl, rfl⟩
  | some r0 =>
    rw [hfind] at hr
    unfold createRow deleteRow at hr
    rcases List.mem_append.mp hr with h | h
    · exact Or.inl (List.mem_of_mem_filter h)
    · simp only [List.mem_singleton] at h
      subst h
      exact Or.inr ⟨rfl, rfl, rfl, rfl⟩


lemma foldl_rows_pres {β : Type} (P : MacroIndicator → Prop) (f : DB → β → DB)
    (hf : ∀ db b r, r ∈ (f db b).rows → r ∈ db.rows ∨ P r) :
    ∀ (l : List β) (db : DB), ∀ r ∈ (l.foldl f db).rows, r ∈ db.rows ∨ P r := by
  intro l
  induction l with
  | nil => intro db r hr; exact Or.inl hr
  | cons b t ih =>
    intro db r hr
    rcases ih (f db b) r hr with h | h
    · exact hf db b r h
    · exact Or.inr h

lemma saveSeriesRows_rows (t nm : String) (db : DB) (s : PSeries) (cnow : DT) :
    ∀ r ∈ (saveSeriesRows t nm db s cnow).rows,
      r ∈ db.rows ∨ (r.value.isSome = true ∧ r.region = "US") := by
  unfold saveSeriesRows
  refine foldl_rows_pres _ _ ?_ s db
  intro db0 p r hr
  obtain ⟨d, pv⟩ := p
  cases pv with
  | none =>
    dsimp only at hr
    exact Or.inl hr
  | some v =>
    dsimp only at hr
    rcases upsertStep_rows db0 t nm (some v) ⟨d, 0⟩ true "US" cnow r hr with h | h
    · exact Or.inl h
    · exact Or.inr ⟨by rw [h.2.1]; rfl, h.2.2.2⟩

lemma saveLeadingIndicators_rows (db : DB) (data : List (String × Option PSeries))
    (cnow : DT) :
    ∀ r ∈ (saveLeadingIndicators db data cnow).rows,
      r ∈ db.rows ∨ (r.value.isSome = true ∧ r.region = "US") := by
  intro r hr
  unfold saveLeadingIndicators at hr
  cases hde : dictGet data "leading_index_de" with
  | none =>
    rw [hde] at hr
    cases hus : dictGet data "leading_index_us" with
    | none =>
      rw [hus] at hr
      exact Or.inl hr
    | some us_data =>
      rw [hus] at hr
      exact saveSeriesRows_rows _ _ db us_data cnow r hr
  | some de_data =>
    rw [hde] at hr
    cases hus : dictGet data "leading_index_us" with
    | none =>
      rw [hus] at hr
      exact saveSeriesRows_rows _ _ db de_data cnow r hr
    | some us_data =>
      rw [hus] at hr
      rcases saveSeriesRows_rows _ _ _ de_data cnow r hr with h | h
      · exact saveSeriesRows_rows _ _ db us_data cnow r h
      · exact Or.inr h

lemma saveScalarGroup_rows (inds : List (String × String × String)) (db : DB)
    (data : List (String × Option ℚ)) (now cnow : DT) :
    ∀ r ∈ (saveScalarGroup inds db data now cnow).rows,
      r ∈ db.rows ∨ (r.value.isSome = true ∧ r.region = "US" ∧ r.date_time = now) := by
  unfold saveScalarGroup
  refine foldl_rows_pres _ _ ?_ inds db
  intro db0 b r hr
  cases hb : dictGet data b.1 with
  | none =>
    rw [hb] at hr
    exact Or.inl hr
  | some v =>
    rw [hb] at hr
    rcases upsertStep_rows db0 b.2.1 b.2.2 (some v) now false "US" cnow r hr with h | h
    · exact Or.inl h
    · exact Or.inr ⟨by rw [h.2.1]; rfl, h.2.2.2, h.2.2.1⟩

/-- C6: normalization drops NaN observations — dropna output contains no
null — and every row the leading-indicator save routine adds through the
repository create carries a non-null (finite) value, as do the rows added
by every scalar save routine. -/
theorem normalized_values_never_null (s : PSeries) (db : DB)
    (data : List (String × Option PSeries)) (cnow : DT)
    (inds : List (String × String × String)) (db2 : DB)
    (data2 : List (String × Option ℚ)) (now2 cnow2 : DT) :
    (∀ p ∈ dropna s, (Prod.snd p).isSome = true) ∧
    (∀ r ∈ (saveLeadingIndicators db data cnow).rows,
      r ∈ db.rows ∨ r.value.isSome = true) ∧
    (∀ r ∈ (saveScalarGroup inds db2 data2 now2 cnow2).rows,
      r ∈ db2.rows ∨ r.value.isSome = true) := by
  refine ⟨?_, ?_, ?_⟩
  · intro p hp
    exact (List.mem_filter.mp hp).2
  · intro r hr
    rcases saveLeadingIndicators_rows db data cnow r hr with h | h
    · exact Or.inl h
    · exact Or.inr h.1
  · intro r hr
    rcases saveScalarGroup_rows inds db2 data2 now2 cnow2 r hr with h | h
    · exact Or.inl h
    · exact Or.inr h.1

/-- C6 witness: at a series containing a NaN and dicts feeding the save
routines from the empty store. -/
theorem normalized_values_never_null_witness :
    (∀ p ∈ dropna exNaNSeries, (Prod.snd p).isSome = true) ∧
    (∀ r ∈ (saveLeadingIndicators emptyDB exLeadData ⟨3, 0⟩).rows,
      r ∈ emptyDB.rows ∨ r.value.isSome = true) ∧
    (∀ r ∈ (saveScalarGroup consumerIndicators emptyDB exConsumerData ⟨3, 0⟩ ⟨3, 1⟩).rows,
      r ∈ emptyDB.rows ∨ r.value.isSome = true) :=
  normalized_values_never_null exNaNSeries emptyDB exLeadData ⟨3, 0⟩ consumerIndicators
    emptyDB exConsumerData ⟨3, 0⟩ ⟨3, 1⟩

lemma matchesTypeDay_type_eq {t : String} {d : Nat} {r : MacroIndicator}
    (h : matchesTypeDay t d r = true) : r.type = t := by
  unfold matchesTypeDay at h
  simp only [Bool.and_eq_true, beq_iff_eq] at h
  exact h.1.1

lemma saveScalarGroup_types (data : List (String × Option ℚ)) (now cnow : DT) :
    ∀ (inds : List (String × String × String)) (db : DB),
      (inds.map (fun kv => kv.2.1)).Nodup →
      (∀ kv ∈ inds, ∀ r ∈ db.rows, r.type ≠ kv.2.1) →
      (saveScalarGroup inds db data now cnow).rows.map (fun r => r.type) =
        db.rows.map (fun r => r.type) ++
          (inds.filter (fun kv => (dictGet data kv.1).isSome)).map (fun kv => kv.2.1) := by
  intro inds
  induction inds with
  | nil =>
    intro db _ _
    simp [saveScalarGroup]
  | cons kv rest ih =>
    intro db hnd hdisj
    simp only [List.map_cons, List.nodup_cons] at hnd
    unfold saveScalarGroup
    simp only [List.foldl_cons]
    cases hget : dictGet data kv.1 with
    | none =>
      have hrec := ih db hnd.2 (fun kv' h' => hdisj kv' (List.mem_cons_of_mem _ h'))
      unfold saveScalarGroup at hrec
      simp only [hget]
      rw [hrec]
      simp [List.filter_cons, hget]
    | some v =>
      have hfind : find_by_type_and_date db kv.2.1 now = none := by
        unfold find_by_type_and_date
        rw [List.find?_eq_none]
        intro r hr hm
        exact hdisj kv (List.mem_cons_self _ _) r hr (matchesTypeDay_type_eq hm)
      have hstep : (upsertStep db kv.2.1 kv.2.2 (some v) now false "US" cnow).rows =
          db.rows ++ [⟨db.nextId, kv.2.1, kv.2.2, some v, now, false, "US", cnow⟩] := by
        unfold upsertStep
        rw [hfind]
        rfl
      have hdisj' : ∀ kv' ∈ rest,
          ∀ r ∈ (upsertStep db kv.2.1 kv.2.2 (some v) now false "US" cnow).rows,
            r.type ≠ kv'.2.1 := by
        intro kv' hkv' r hr
        rw [hstep] at hr
        rcases List.mem_append.mp hr with h | h
        · exact hdisj kv' (List.mem_cons_of_mem _ hkv') r h
        · simp only [List.mem_singleton] at h
          subst h
          intro habs
          have habs' : kv.2.1 = kv'.2.1 := habs
          exact hnd.1 (by rw [habs']; exact List.mem_map.mpr ⟨kv', hkv', rfl⟩)
      have hrec := ih (upsertStep db kv.2.1 kv.2.2 (some v) now false "US" cnow) hnd.2 hdisj'
      unfold saveScalarGroup at hrec
      simp only [hget]
      rw [hrec, hstep]
      simp [List.filter_cons, hget, List.map_append]

/-- C7: when some sub-indicators of the consumer group are None and
others are not, the save routine persists exactly the non-None
sub-indicators (one row per present key, in family order), skips the None
ones, and the orchestration wrapper still reports overall success. -/
theorem family_failure_tolerance (data : List (String × Option ℚ)) (db : DB) (now cnow : DT) :
    ((fetch_and_store_consumer_indices db data now cnow).1 = true) ∧
    ((saveConsumerIndices emptyDB data now cnow).rows.map (fun r => r.type) =
      (consumerIndicators.filter (fun kv => (dictGet data kv.1).isSome)).map
        (fun kv => kv.2.1)) := by
  refine ⟨rfl, ?_⟩
  have h := saveScalarGroup_types data now cnow consumerIndicators emptyDB (by decide)
    (by intro kv _ r hr; simp [emptyDB] at hr)
  unfold saveConsumerIndices
  rw [h]
  rfl

/-- C7 witness: with consumer_sentiment = None and the two siblings
present, exactly the siblings are persisted and the call reports True. -/
theorem family_failure_tolerance_witness :
    ((fetch_and_store_consumer_indices emptyDB exConsumerData ⟨9, 0⟩ ⟨9, 1⟩).1 = true) ∧
    ((saveConsumerIndices emptyDB exConsumerData ⟨9, 0⟩ ⟨9, 1⟩).rows.map (fun r => r.type) =
      ["TOTALSL", "DSPIC96"]) := by
  have h := family_failure_tolerance exConsumerData emptyDB ⟨9, 0⟩ ⟨9, 1⟩
  exact ⟨h.1, h.2.trans (by decide)⟩

/-- C9: every row a scalar save routine stores is dated with the save
invocation time now, not a provider-reported date; and from an empty
store the treasury routine stores exactly one row per non-None key of the
group, all bearing that same fetch-time date. -/
theorem latest_saved_with_fetch_time (data : List (String × Option ℚ)) (now cnow : DT) :
    (∀ r ∈ (saveTreasuryData emptyDB data now cnow).rows, r.date_time = now) ∧
    ((saveTreasuryData emptyDB data now cnow).rows.map (fun r => r.type) =
      (treasuryIndicators.filter (fun kv => (dictGet data kv.1).isSome)).map
        (fun kv => kv.2.1)) ∧
    (∀ r ∈ (saveConsumerIndices emptyDB data now cnow).rows, r.date_time = now) ∧
    (∀ r ∈ (savePmiIndicators emptyDB data now cnow).rows, r.date_time = now) ∧
    (∀ r ∈ (saveCommodityPrices emptyDB data now cnow).rows, r.date_time = now) ∧
    (∀ r ∈ (saveFinancialConditionIndices emptyDB data now cnow).rows, r.date_time = now) := by
  have hdate : ∀ (inds : List (String × String × String)),
      ∀ r ∈ (saveScalarGroup inds emptyDB data now cnow).rows, r.date_time = now := by
    intro inds r hr
    rcases saveScalarGroup_rows inds emptyDB data now cnow r hr with h | h
    · simp [emptyDB] at h
    · exact h.2.2
  refine ⟨hdate treasuryIndicators, ?_, hdate consumerIndicators, hdate pmiIndicators,
    hdate commodityIndicators, hdate financialIndicators⟩
  have h := saveScalarGroup_types data now cnow treasuryIndicators emptyDB (by decide)
    (by intro kv _ r hr; simp [emptyDB] at hr)
  unfold saveTreasuryData
  rw [h]
  rfl

/-- C9 witness: the treasury group with one failed spread, saved at a
concrete invocation instant. -/
theorem latest_saved_with_fetch_time_witness :
    (∀ r ∈ (saveTreasuryData emptyDB exTreasuryData ⟨9, 2⟩ ⟨9, 3⟩).rows,
      r.date_time = (⟨9, 2⟩ : DT)) ∧
    ((saveTreasuryData emptyDB exTreasuryData ⟨9, 2⟩ ⟨9, 3⟩).rows.map (fun r => r.type) =
      ["DGS3MO", "DGS2", "DGS10", "SPREAD_10Y_2Y"]) := by
  have h := latest_saved_with_fetch_time exTreasuryData ⟨9, 2⟩ ⟨9, 3⟩
  exact ⟨h.1, h.2.1.trans (by decide)⟩

lemma applySaveOp_region (db : DB) (op : SaveOp) :
    ∀ r ∈ (applySaveOp db op).rows, r ∈ db.rows ∨ r.region = "US" := by
  intro r hr
  cases op with
  | leading data cnow =>
    rcases saveLeadingIndicators_rows db data cnow r hr with h | h
    · exact Or.inl h
    · exact Or.inr h.2
  | treasury data now cnow =>
    rcases saveScalarGroup_rows treasuryIndicators db data now cnow r hr with h | h
    · exact Or.inl h
    · exact Or.inr h.2.1
  | consumer data now cnow =>
    rcases saveScalarGroup_rows consumerIndicators db data now cnow r hr with h | h
    · exact Or.inl h
    · exact Or.inr h.2.1
  | financial data now cnow =>
    rcases saveScalarGroup_rows financialIndicators db data now cnow r hr with h | h
    · exact Or.inl h
    · exact Or.inr h.2.1
  | pmi data now cnow =>
    rcases saveScalarGroup_rows pmiIndicators db data now cnow r hr with h | h
    · exact Or.inl h
    · exact Or.inr h.2.1
  | commodity data now cnow =>
    rcases saveScalarGroup_rows commodityIndicators db data now cnow r hr with h | h
    · exact Or.inl h
    · exact Or.inr h.2.1

lemma applyOps_region (ops : List SaveOp) :
    ∀ db : DB, (∀ r ∈ db.rows, r.region = "US") →
      ∀ r ∈ (ops.foldl applySaveOp db).rows, r.region = "US" := by
  induction ops with
  | nil => intro db h r hr; exact h r hr
  | cons op t ih =>
    intro db h r hr
    refine ih (applySaveOp db op) ?_ r hr
    intro r' hr'
    rcases applySaveOp_region db op r' hr' with h' | h'
    · exact h r' h'
    · exact h'

/-- C10: every row created by any MacroDataService save routine — the
BBKMLEIX German leading index included — has region US, so after any
sequence of orchestration save calls starting from the empty store the
CHINA read accessor returns an empty mapping. -/
theorem all_rows_region_us_china_empty (ops : List SaveOp) (s e : DT) :
    (∀ r ∈ (ops.foldl applySaveOp emptyDB).rows, r.region = "US") ∧
    get_all_china_indicators (ops.foldl applySaveOp emptyDB) s e = [] := by
  have hreg := applyOps_region ops emptyDB (by intro r hr; simp [emptyDB] at hr)
  refine ⟨hreg, ?_⟩
  unfold get_all_china_indicators
  have hne : ("US" : String) ≠ "CHINA" := by decide
  have hfil : (ops.foldl applySaveOp emptyDB).rows.filter
      (fun r => dtLe s r.date_time && dtLe r.date_time e && r.region == "CHINA") = [] := by
    rw [List.filter_eq_nil_iff]
    intro r hr
    have hrus := hreg r hr
    simp [hrus, hne]
  unfold find_by_region_date_range
  rw [hfil, List.mergeSort_nil]
  rfl

/-- C10 witness: a concrete sequence of save calls, including a BBKMLEIX
observation, leaves the CHINA mapping empty. -/
theorem all_rows_region_us_china_empty_witness :
    (∀ r ∈ ([SaveOp.leading exLeadData ⟨5, 0⟩,
        SaveOp.treasury exTreasuryData ⟨6, 0⟩ ⟨6, 1⟩].foldl applySaveOp emptyDB).rows,
      r.region = "US") ∧
    get_all_china_indicators
      ([SaveOp.leading exLeadData ⟨5, 0⟩,
        SaveOp.treasury exTreasuryData ⟨6, 0⟩ ⟨6, 1⟩].foldl applySaveOp emptyDB)
      ⟨0, 0⟩ ⟨9, 0⟩ = [] :=
  all_rows_region_us_china_empty
    [SaveOp.leading exLeadData ⟨5, 0⟩, SaveOp.treasury exTreasuryData ⟨6, 0⟩ ⟨6, 1⟩]
    ⟨0, 0⟩ ⟨9, 0⟩

lemma getLast?_le_of_sorted :
    ∀ (l : PSeries), List.Pairwise (fun p q => p.1 < q.1) l →
      ∀ (y : Nat × Option ℚ), l.getLast? = some y → ∀ x ∈ l, x.1 ≤ y.1 := by
  intro l
  induction l with
  | nil =>
    intro _ y hy
    simp at hy
  | cons a t ih =>
    intro hs y hy x hx
    cases t with
    | nil =>
      simp only [List.getLast?_singleton, Option.some.injEq] at hy
      simp only [List.mem_singleton] at hx
      rw [hx, hy]
    | cons b t2 =>
      rw [List.getLast?_cons_cons] at hy
      have hym : y ∈ b :: t2 := mem_of_getLast?_eq_some hy
      rcases List.mem_cons.mp hx with heq | hx'
      · subst heq
        have := (List.pairwise_cons.mp hs).1 y hym
        omega
      · exact ih (List.pairwise_cons.mp hs).2 y hy x hx'

lemma lastSome_spec (s : PSeries) (hs : List.Pairwise (fun p q => p.1 < q.1) s) :
    ((∃ p ∈ s, (Prod.snd p).isSome = true) →
      ∃ d q, ((dropna s).getLast?).bind Prod.snd = some q ∧ (d, some q) ∈ s ∧
        ∀ p ∈ s, (Prod.snd p).isSome = true → p.1 ≤ d) ∧
    ((∀ p ∈ s, Prod.snd p = none) → ((dropna s).getLast?).bind Prod.snd = none) := by
  constructor
  · rintro ⟨p0, hp0, hp0s⟩
    have hpd : p0 ∈ dropna s := List.mem_filter.mpr ⟨hp0, hp0s⟩
    cases hl : (dropna s).getLast? with
    | none =>
      rw [List.getLast?_eq_none_iff] at hl
      rw [hl] at hpd
      simp at hpd
    | some y =>
      have hym : y ∈ dropna s := mem_of_getLast?_eq_some hl
      have hys : (Prod.snd y).isSome = true := (List.mem_filter.mp hym).2
      obtain ⟨q, hq⟩ := Option.isSome_iff_exists.mp hys
      refine ⟨y.1, q, ?_, ?_, ?_⟩
      · rw [Option.some_bind, hq]
      · have hmem : y ∈ s := List.mem_of_mem_filter hym
        have hy2 : y = (y.1, some q) := by rw [← hq]
        rw [← hy2]
        exact hmem
      · intro p hp hps
        have hpd' : p ∈ dropna s := List.mem_filter.mpr ⟨hp, hps⟩
        exact getLast?_le_of_sorted (dropna s)
          (List.Pairwise.sublist (List.filter_sublist s) hs) y hl p hpd'
  · intro hall
    have hnil : dropna s = [] := by
      rw [dropna, List.filter_eq_nil_iff]
      intro p hp
      rw [hall p hp]
      simp
    rw [hnil]
    rfl

/-- C8: a "latest"-shape fetch over a window with at least one non-null
observation returns the value of a non-null observation whose date is
maximal among the non-null ones (the last by date ascending), and None
when every observation is null — for both the FRED latest helper and the
Trading Economics latest helper. -/
theorem latest_value_is_last_nonnull (env : FetchEnv) (sid : String) (raw : PSeries)
    (tenv : TEEnv) (country indicator : String) (col : PSeries)
    (henv : env sid = FetchOutcome.ok raw)
    (hsorted : List.Pairwise (fun p q => p.1 < q.1) raw)
    (htenv : tenv country indicator = TEOutcome.ok true col)
    (hcsorted : List.Pairwise (fun p q => p.1 < q.1) col) :
    ((∃ p ∈ raw, (Prod.snd p).isSome = true) →
      ∃ d q, getLatestFredSeriesValue env sid = some q ∧ (d, some q) ∈ raw ∧
        ∀ p ∈ raw, (Prod.snd p).isSome = true → p.1 ≤ d) ∧
    ((∀ p ∈ raw, Prod.snd p = none) → getLatestFredSeriesValue env sid = none) ∧
    ((∃ p ∈ col, (Prod.snd p).isSome = true) →
      ∃ d q, getLatestIndicatorValue tenv country indicator = some q ∧ (d, some q) ∈ col ∧
        ∀ p ∈ col, (Prod.snd p).isSome = true → p.1 ≤ d) ∧
    ((∀ p ∈ col, Prod.snd p = none) → getLatestIndicatorValue tenv country indicator = none) := by
  have hfred : getLatestFredSeriesValue env sid = ((dropna raw).getLast?).bind Prod.snd := by
    unfold getLatestFredSeriesValue
    rw [henv]
  have hspec := lastSome_spec raw hsorted
  have hcspec := lastSome_spec col hcsorted
  have hte : col ≠ [] → getLatestIndicatorValue tenv country indicator =
      ((dropna col).getLast?).bind Prod.snd := by
    intro hne
    unfold getLatestIndicatorValue
    rw [htenv]
    have hie : col.isEmpty = false := by
      rw [Bool.eq_false_iff]
      intro h
      exact hne (List.isEmpty_iff.mp h)
    simp [hie]
  refine ⟨?_, ?_, ?_, ?_⟩
  · intro hex
    rw [hfred]
    exact hspec.1 hex
  · intro hall
    rw [hfred]
    exact hspec.2 hall
  · intro hex
    obtain ⟨p, hp, _⟩ := hex
    rw [hte (List.ne_nil_of_mem hp)]
    exact hcspec.1 ⟨p, hp, by assumption⟩
  · intro hall
    by_cases hne : col = []
    · unfold getLatestIndicatorValue
      rw [htenv]
      simp [hne]
    · rw [hte hne]
      exact hcspec.2 hall

/-- C8 witness: a window whose raw series ends in a NaN — the returned
latest value is the non-null observation of maximal date. -/
theorem latest_value_is_last_nonnull_witness :
    (∃ p ∈ rawLeadOk, (Prod.snd p).isSome = true) ∧
    (∃ d q, getLatestFredSeriesValue envLeadOk "USALOLITOAASTSAM" = some q ∧
      (d, some q) ∈ rawLeadOk ∧
      ∀ p ∈ rawLeadOk, (Prod.snd p).isSome = true → p.1 ≤ d) := by
  have h := latest_value_is_last_nonnull envLeadOk "USALOLITOAASTSAM" rawLeadOk envTE
    "United States" "ISM Manufacturing PMI" [(0, some 50), (2, some 51)] (by decide)
    (by decide) (by decide) (by decide)
  exact ⟨⟨(0, some 3), by decide, by decide⟩, h.1 ⟨(0, some 3), by decide, by decide⟩⟩
